import Mathlib

/-!
Shallow embedding of `vendor/github.com/grafana/dskit/grpcutil/proto.go`:
a bounded-size message codec (`ParseProtoReader` / `SerializeProtoResponse`)
with optional raw-snappy block compression.

Modelling conventions:
* Go `byte` is `Nat` (concrete inputs use values < 256).
* Go `int` parameters (`expectedSize`, `maxSize`) are `Int`.
* A Go `(body []byte, err error)` pair is `List Byte × Option GoErr`;
  a `nil` slice is the empty list (only its length is ever observed).
* An `io.Reader` is a `ByteSource`: either a reader that implements the
  `BytesBuffer() *bytes.Buffer` capability (the zero-copy path probed by
  `tryBufferFromReader`) or a generic incremental reader that yields its
  content and then EOF.  Read errors of the underlying reader are not
  modelled (`bytes.Buffer.ReadFrom` returns a nil error at EOF).
* `Stats` is ghost instrumentation recording how many bytes were read
  through the generic reader interface and how many times the snappy
  block decoder was invoked; it mirrors the control flow exactly and is
  never consulted by the embedded code itself.
* The proto message type is opaque in the Go code (`proto.Message`); it
  is modelled by a `ProtoCodec` record of `marshal`/`unmarshal`
  functions.  `req.Reset()` followed by `Unmarshal(body)` populates the
  target from `body` alone, which is the functional `unmarshal body`.
* The snappy library is vendored outside the sources at hand; its block
  API (`snappy.DecodedLen`, `snappy.Decode`, `snappy.Encode`) is
  modelled from the spec: a self-describing block whose uvarint header
  declares the decoded length, decoding being the inverse of encoding
  and failing on a body inconsistent with the header.
-/

namespace Grpcutil

/-- Go `byte` values. -/
abbrev Byte := Nat

/-- Go `CompressionType` is an `int`-typed enumeration, so values outside
the two declared constants are representable. -/
abbrev CompressionType := Int

/-- Go constant `NoCompression CompressionType = iota` (= 0). -/
def NoCompression : CompressionType := 0

/-- Go constant `RawSnappy` (= 1). -/
def RawSnappy : CompressionType := 1

/-- Go constant `messageSizeLargerErrFmt`. -/
def messageSizeLargerErrFmt : String := "received message larger than max (%d vs %d)"

/-- Substitute the first occurrence of `%d` in a character list by `v`. -/
def subst1 (s : List Char) (v : String) : List Char :=
  match s with
  | [] => []
  | '%' :: 'd' :: rest => v.data ++ rest
  | c :: rest => c :: subst1 rest v

/-- Substitute the first two occurrences of `%d` by `a` and `b`
(single pass, as `fmt.Sprintf` does for a two-verb format string). -/
def subst2 (s : List Char) (a b : String) : List Char :=
  match s with
  | [] => []
  | '%' :: 'd' :: rest => a.data ++ subst1 rest b
  | c :: rest => c :: subst2 rest a b

/-- `fmt.Errorf`/`fmt.Sprintf` on a format string with two `%d` verbs. -/
def formatInt2 (fmt : String) (a b : Int) : String :=
  String.mk (subst2 fmt.data (toString a) (toString b))

/-- Errors produced on the decode and encode paths. -/
inductive GoErr where
  | sizeExceeded (observed maxS : Int)
  | snappyCorrupt
  | unmarshalErr (msg : String)
  | marshalErr (msg : String)
  deriving DecidableEq

/-- The `Error()` string of each modelled Go error.  Every size violation
is constructed by `fmt.Errorf(messageSizeLargerErrFmt, observed, maxSize)`. -/
def GoErr.message : GoErr → String
  | .sizeExceeded o m => formatInt2 messageSizeLargerErrFmt o m
  | .snappyCorrupt => "snappy: corrupt input"
  | .unmarshalErr s => s
  | .marshalErr s => "error marshaling proto response: " ++ s

/-- Whether an error is a size-limit violation. -/
def GoErr.isSizeExceeded : GoErr → Bool
  | .sizeExceeded _ _ => true
  | _ => false

/-- Little-endian base-128 unsigned varint, as read by `binary.Uvarint`
inside `snappy.decodedLen`: returns the value and the remaining bytes. -/
def uvarint : List Byte → Option (Nat × List Byte)
  | [] => none
  | b :: rest =>
    if b < 128 then some (b, rest)
    else
      match uvarint rest with
      | some (v, rest2) => some ((b - 128) + 128 * v, rest2)
      | none => none

/-- Uvarint encoding, as written by `binary.PutUvarint` inside
`snappy.Encode`. -/
def uvarintEncode (n : Nat) : List Byte :=
  if n < 128 then [n] else (n % 128 + 128) :: uvarintEncode (n / 128)
termination_by n
decreasing_by exact Nat.div_lt_self (by omega) (by omega)

/-- Modelled from the spec: `snappy.DecodedLen` reads the block header's
declared decoded length without decompressing; an unreadable header is a
corrupt-input error. -/
def snappyDecodedLen (src : List Byte) : Except GoErr Nat :=
  match uvarint src with
  | some (v, _) => Except.ok v
  | none => Except.error GoErr.snappyCorrupt

/-- Modelled from the spec: `snappy.Decode` recovers the payload declared
by the header; a body inconsistent with the declared length is a
corrupt-input error. -/
def snappyDecode (src : List Byte) : Except GoErr (List Byte) :=
  match uvarint src with
  | none => Except.error GoErr.snappyCorrupt
  | some (v, body) => if body.length = v then Except.ok body else Except.error GoErr.snappyCorrupt

/-- Modelled from the spec: `snappy.Encode` produces a block whose header
declares the decoded length, decodable back to the input. -/
def snappyEncode (data : List Byte) : List Byte :=
  uvarintEncode data.length ++ data

/-- An `io.Reader` handed to `ParseProtoReader`: either one implementing
the `BytesBuffer() *bytes.Buffer` capability, or a generic reader. -/
inductive ByteSource where
  | buffer (data : List Byte)
  | reader (data : List Byte)
  deriving DecidableEq

/-- The full byte content held by the source. -/
def ByteSource.content : ByteSource → List Byte
  | .buffer d => d
  | .reader d => d

/-- Go `tryBufferFromReader`: the capability probe for a pre-materialized
buffer (`some` plays the role of `(buf, true)`, `none` of `(nil, false)`). -/
def tryBufferFromReader : ByteSource → Option (List Byte)
  | .buffer d => some d
  | .reader _ => none

/-- Ghost instrumentation: bytes consumed through the generic reader
interface, and number of calls to the snappy block decoder. -/
structure Stats where
  bytesRead : Nat
  snappyDecodeCalls : Nat
  deriving DecidableEq

/-- Go `decompressFromBuffer` (second component counts `snappy.Decode`
calls).  The length check precedes the compression switch; a compression
value outside the two constants falls through to `return nil, nil`. -/
def decompressFromBuffer (buffer : List Byte) (maxSize : Int) (compression : CompressionType) :
    (List Byte × Option GoErr) × Nat :=
  if (buffer.length : Int) > maxSize then
    (([], some (GoErr.sizeExceeded buffer.length maxSize)), 0)
  else if compression = NoCompression then
    ((buffer, none), 0)
  else if compression = RawSnappy then
    match snappyDecodedLen buffer with
    | Except.error e => (([], some e), 0)
    | Except.ok size =>
      if (size : Int) > maxSize then
        (([], some (GoErr.sizeExceeded size maxSize)), 0)
      else
        match snappyDecode buffer with
        | Except.error e => (([], some e), 1)
        | Except.ok body => ((body, none), 1)
  else
    (([], none), 0)

/-- `buf.ReadFrom(io.LimitReader(reader, int64(maxSize)+1))`: at most
`maxSize + 1` bytes are drawn from the reader (none if the limit is not
positive); EOF is not an error. -/
def limitedRead (data : List Byte) (maxSize : Int) : List Byte :=
  data.take (maxSize + 1).toNat

/-- Go `decompressFromReader`.  `expectedSize` only pre-sizes the buffer
via `buf.Grow(expectedSize + bytes.MinRead)`, which has no observable
effect; it is kept as a parameter for signature fidelity.  In the
`NoCompression` case the bytes read are returned with the nil error that
`ReadFrom` yields at EOF; an unrecognized compression value performs no
read and returns `nil, nil`. -/
def decompressFromReader (data : List Byte) (expectedSize maxSize : Int)
    (compression : CompressionType) : (List Byte × Option GoErr) × Stats :=
  if compression = NoCompression then
    ((limitedRead data maxSize, none), ⟨(limitedRead data maxSize).length, 0⟩)
  else if compression = RawSnappy then
    ((decompressFromBuffer (limitedRead data maxSize) maxSize RawSnappy).1,
     ⟨(limitedRead data maxSize).length,
      (decompressFromBuffer (limitedRead data maxSize) maxSize RawSnappy).2⟩)
  else
    (([], none), ⟨0, 0⟩)

/-- Body of Go `decompressRequest` before its deferred closure runs:
the `expectedSize > maxSize` pre-check, then the capability probe
selecting the zero-copy or the streaming path. -/
def decompressRequestRaw (reader : ByteSource) (expectedSize maxSize : Int)
    (compression : CompressionType) : (List Byte × Option GoErr) × Stats :=
  if expectedSize > maxSize then
    (([], some (GoErr.sizeExceeded expectedSize maxSize)), ⟨0, 0⟩)
  else
    match tryBufferFromReader reader with
    | some buffer =>
      ((decompressFromBuffer buffer maxSize compression).1,
       ⟨0, (decompressFromBuffer buffer maxSize compression).2⟩)
    | none => decompressFromReader reader.content expectedSize maxSize compression

/-- The deferred closure of Go `decompressRequest`: on every return path,
if `err != nil && len(body) > maxSize`, the error is rewritten to the
size-exceeded error for `len(body)`; the body itself is returned as-is. -/
def applyDeferred (maxSize : Int) : List Byte × Option GoErr → List Byte × Option GoErr
  | (body, some e) =>
    if (body.length : Int) > maxSize then
      (body, some (GoErr.sizeExceeded body.length maxSize))
    else (body, some e)
  | (body, none) => (body, none)

/-- Go `decompressRequest`: the raw body wrapped by the deferred
error-rewriting closure. -/
def decompressRequest (reader : ByteSource) (expectedSize maxSize : Int)
    (compression : CompressionType) : (List Byte × Option GoErr) × Stats :=
  (applyDeferred maxSize (decompressRequestRaw reader expectedSize maxSize compression).1,
   (decompressRequestRaw reader expectedSize maxSize compression).2)

/-- The opaque structured-message capability: `proto.Marshal` and
`Reset`-then-`Unmarshal` for a message type `M`. -/
structure ProtoCodec (M : Type) where
  marshal : M → Except GoErr (List Byte)
  unmarshal : List Byte → Except GoErr M

/-- Go `ParseProtoReader`: decompress under the size budget, then reset
the target and unmarshal the body into it; tracing-span emission has no
effect on control flow and is omitted. -/
def ParseProtoReader {M : Type} (codec : ProtoCodec M) (reader : ByteSource)
    (expectedSize maxSize : Int) (compression : CompressionType) :
    Except GoErr M × Stats :=
  match (decompressRequest reader expectedSize maxSize compression).1.2 with
  | some e => (Except.error e, (decompressRequest reader expectedSize maxSize compression).2)
  | none =>
    match codec.unmarshal (decompressRequest reader expectedSize maxSize compression).1.1 with
    | Except.error e => (Except.error e, (decompressRequest reader expectedSize maxSize compression).2)
    | Except.ok m => (Except.ok m, (decompressRequest reader expectedSize maxSize compression).2)

/-- Go `SerializeProtoResponse`: marshal, optionally snappy-encode, and
write to the HTTP response writer — modelled by returning the bytes
written (transport write errors are not modelled). -/
def SerializeProtoResponse {M : Type} (codec : ProtoCodec M) (resp : M)
    (compression : CompressionType) : Except GoErr (List Byte) :=
  match codec.marshal resp with
  | Except.error e => Except.error (GoErr.marshalErr e.message)
  | Except.ok data =>
    if compression = RawSnappy then Except.ok (snappyEncode data) else Except.ok data

/-- A concrete lawful codec for witnesses: the message is its own byte
representation. -/
def bytesCodec : ProtoCodec (List Byte) :=
  ⟨fun m => Except.ok m, fun b => Except.ok b⟩

/-! ### Helper lemmas about the snappy block model -/

theorem uvarint_uvarintEncode_append (n : Nat) (rest : List Byte) :
    uvarint (uvarintEncode n ++ rest) = some (n, rest) := by
  induction n using Nat.strong_induction_on with
  | _ n ih =>
    unfold uvarintEncode
    split
    · next h => simp [uvarint, h]
    · next h =>
      have h2 : ¬ (n % 128 + 128 < 128) := by omega
      simp only [List.cons_append, uvarint, if_neg h2, List.append_eq]
      rw [ih (n / 128) (Nat.div_lt_self (by omega) (by omega))]
      simp only [Option.some.injEq, Prod.mk.injEq]
      exact ⟨by omega, trivial⟩

theorem uvarintEncode_length_pos (n : Nat) : 0 < (uvarintEncode n).length := by
  unfold uvarintEncode
  split <;> simp

theorem snappyDecodedLen_error {b : List Byte} {e : GoErr}
    (h : snappyDecodedLen b = Except.error e) : e = GoErr.snappyCorrupt := by
  unfold snappyDecodedLen at h
  split at h <;> simp_all

theorem snappyDecode_error {b : List Byte} {e : GoErr}
    (h : snappyDecode b = Except.error e) : e = GoErr.snappyCorrupt := by
  unfold snappyDecode at h
  split at h
  · simp_all
  · split at h <;> simp_all

theorem snappyDecode_ok_decodedLen {b payload : List Byte}
    (h : snappyDecode b = Except.ok payload) :
    snappyDecodedLen b = Except.ok payload.length := by
  unfold snappyDecode at h
  unfold snappyDecodedLen
  split at h
  · simp_all
  · next v body heq =>
    rw [heq]
    split at h <;> simp_all

theorem snappyDecode_snappyEncode (data : List Byte) :
    snappyDecode (snappyEncode data) = Except.ok data := by
  unfold snappyDecode snappyEncode
  rw [uvarint_uvarintEncode_append]
  simp

theorem snappyDecodedLen_snappyEncode (data : List Byte) :
    snappyDecodedLen (snappyEncode data) = Except.ok data.length := by
  unfold snappyDecodedLen snappyEncode
  rw [uvarint_uvarintEncode_append]

theorem limitedRead_of_le {data : List Byte} {maxSize : Int}
    (h : (data.length : Int) ≤ maxSize) : limitedRead data maxSize = data := by
  unfold limitedRead
  exact List.take_of_length_le (by omega)

/-! ### Helper lemmas about the shape of size-exceeded errors -/

theorem decompressFromBuffer_sizeErr {b : List Byte} {m : Int} {c : CompressionType}
    {o m' : Int} (h : (decompressFromBuffer b m c).1.2 = some (GoErr.sizeExceeded o m')) :
    m' = m ∧ o > m := by
  unfold decompressFromBuffer at h
  split at h
  · next h1 => simp_all
  · next h1 =>
    split at h
    · simp_all
    · split at h
      · split at h
        · next e heq =>
          have := snappyDecodedLen_error heq
          simp_all
        · next size heq =>
          split at h
          · next h2 => simp_all
          · next h2 =>
            split at h
            · next e2 heq2 =>
              have := snappyDecode_error heq2
              simp_all
            · next body heq2 => simp_all
      · simp_all

theorem decompressFromReader_sizeErr {data : List Byte} {es m : Int} {c : CompressionType}
    {o m' : Int} (h : (decompressFromReader data es m c).1.2 = some (GoErr.sizeExceeded o m')) :
    m' = m ∧ o > m := by
  unfold decompressFromReader at h
  split at h
  · simp_all
  · split at h
    · exact decompressFromBuffer_sizeErr (by simpa using h)
    · simp_all

theorem decompressRequestRaw_sizeErr {src : ByteSource} {es m : Int} {c : CompressionType}
    {o m' : Int} (h : (decompressRequestRaw src es m c).1.2 = some (GoErr.sizeExceeded o m')) :
    m' = m ∧ o > m := by
  unfold decompressRequestRaw at h
  split at h
  · next h1 => simp_all
  · split at h
    · exact decompressFromBuffer_sizeErr (by simpa using h)
    · exact decompressFromReader_sizeErr h

/-! ### Computation lemmas for the individual branches -/

theorem applyDeferred_nil_err {maxSize : Int} (h : 0 ≤ maxSize) (e : GoErr) :
    applyDeferred maxSize ([], some e) = ([], some e) := by
  simp only [applyDeferred, List.length_nil, Nat.cast_zero]
  rw [if_neg (by omega)]

theorem decompressFromBuffer_noCompression_ok {b : List Byte} {ms : Int}
    (hlen : (b.length : Int) ≤ ms) :
    decompressFromBuffer b ms NoCompression = ((b, none), 0) := by
  unfold decompressFromBuffer
  rw [if_neg (by omega), if_pos rfl]

theorem decompressFromBuffer_rawSnappy_ok {b payload : List Byte} {ms : Int}
    (hlen : (b.length : Int) ≤ ms)
    (hdec : snappyDecode b = Except.ok payload)
    (hfits : (payload.length : Int) ≤ ms) :
    decompressFromBuffer b ms RawSnappy = ((payload, none), 1) := by
  have hdl := snappyDecode_ok_decodedLen hdec
  unfold decompressFromBuffer
  rw [if_neg (by omega), if_neg (by decide), if_pos rfl, hdl]
  simp only [hdec]
  rw [if_neg (by omega)]

theorem decompressFromBuffer_rawSnappy_declTooBig {b : List Byte} {ms : Int} {n : Nat}
    (hlen : (b.length : Int) ≤ ms)
    (hdl : snappyDecodedLen b = Except.ok n)
    (hover : (n : Int) > ms) :
    decompressFromBuffer b ms RawSnappy = (([], some (GoErr.sizeExceeded n ms)), 0) := by
  unfold decompressFromBuffer
  rw [if_neg (by omega), if_neg (by decide), if_pos rfl, hdl]
  simp only []
  rw [if_pos hover]

theorem decompressFromBuffer_rawSnappy_corrupt {b : List Byte} {ms : Int} {n : Nat} {e : GoErr}
    (hlen : (b.length : Int) ≤ ms)
    (hdl : snappyDecodedLen b = Except.ok n)
    (hfits : (n : Int) ≤ ms)
    (hbad : snappyDecode b = Except.error e) :
    decompressFromBuffer b ms RawSnappy = (([], some e), 1) := by
  unfold decompressFromBuffer
  rw [if_neg (by omega), if_neg (by decide), if_pos rfl, hdl]
  simp only [hbad]
  rw [if_neg (by omega)]

theorem decompressFromBuffer_unknown {b : List Byte} {ms : Int} {c : CompressionType}
    (hlen : (b.length : Int) ≤ ms) (h0 : ¬ c = NoCompression) (h1 : ¬ c = RawSnappy) :
    decompressFromBuffer b ms c = (([], none), 0) := by
  unfold decompressFromBuffer
  rw [if_neg (by omega), if_neg h0, if_neg h1]

theorem decompressRequestRaw_buffer (d : List Byte) (es ms : Int) (c : CompressionType)
    (hle : ¬ (es > ms)) :
    decompressRequestRaw (ByteSource.buffer d) es ms c
      = ((decompressFromBuffer d ms c).1, ⟨0, (decompressFromBuffer d ms c).2⟩) := by
  unfold decompressRequestRaw
  rw [if_neg hle]
  rfl

theorem decompressRequestRaw_reader (d : List Byte) (es ms : Int) (c : CompressionType)
    (hle : ¬ (es > ms)) :
    decompressRequestRaw (ByteSource.reader d) es ms c = decompressFromReader d es ms c := by
  unfold decompressRequestRaw
  rw [if_neg hle]
  rfl

theorem decompressFromReader_noCompression (d : List Byte) (es ms : Int) :
    decompressFromReader d es ms NoCompression
      = ((limitedRead d ms, none), ⟨(limitedRead d ms).length, 0⟩) := rfl

theorem decompressFromReader_rawSnappy (d : List Byte) (es ms : Int) :
    decompressFromReader d es ms RawSnappy
      = ((decompressFromBuffer (limitedRead d ms) ms RawSnappy).1,
         ⟨(limitedRead d ms).length, (decompressFromBuffer (limitedRead d ms) ms RawSnappy).2⟩) :=
  rfl

theorem decompressFromReader_unknown (d : List Byte) (es ms : Int) (c : CompressionType)
    (h0 : ¬ c = NoCompression) (h1 : ¬ c = RawSnappy) :
    decompressFromReader d es ms c = (([], none), ⟨0, 0⟩) := by
  unfold decompressFromReader
  rw [if_neg h0, if_neg h1]

/-- When the whole source content is within `maxSize`, the streaming path
reads all of it and both acquisition paths reduce to the same
`decompressFromBuffer` computation on the full content. -/
theorem decompressRequestRaw_via_buffer (src : ByteSource) (es ms : Int) (c : CompressionType)
    (hle : es ≤ ms) (hlen : (src.content.length : Int) ≤ ms) :
    (decompressRequestRaw src es ms c).1 = (decompressFromBuffer src.content ms c).1 ∧
      (decompressRequestRaw src es ms c).2.snappyDecodeCalls
        = (decompressFromBuffer src.content ms c).2 := by
  cases src with
  | buffer d =>
    simp only [ByteSource.content] at hlen ⊢
    rw [decompressRequestRaw_buffer d es ms c (by omega)]
    exact ⟨rfl, rfl⟩
  | reader d =>
    simp only [ByteSource.content] at hlen ⊢
    rw [decompressRequestRaw_reader d es ms c (by omega)]
    by_cases h1 : c = NoCompression
    · subst h1
      rw [decompressFromReader_noCompression, limitedRead_of_le hlen,
        decompressFromBuffer_noCompression_ok hlen]
      exact ⟨rfl, rfl⟩
    · by_cases h2 : c = RawSnappy
      · subst h2
        rw [decompressFromReader_rawSnappy, limitedRead_of_le hlen]
        exact ⟨rfl, rfl⟩
      · rw [decompressFromReader_unknown d es ms c h1 h2,
          decompressFromBuffer_unknown hlen h1 h2]
        exact ⟨rfl, rfl⟩

theorem decompressRequest_stats (src : ByteSource) (es ms : Int) (c : CompressionType) :
    (decompressRequest src es ms c).2 = (decompressRequestRaw src es ms c).2 := rfl

theorem decompressRequest_ok_of_buffer {src : ByteSource} {es ms : Int} {c : CompressionType}
    {body : List Byte}
    (hle : es ≤ ms) (hlen : (src.content.length : Int) ≤ ms)
    (hbuf : (decompressFromBuffer src.content ms c).1 = (body, none)) :
    (decompressRequest src es ms c).1 = (body, none) := by
  obtain ⟨hr1, _⟩ := decompressRequestRaw_via_buffer src es ms c hle hlen
  unfold decompressRequest
  rw [hr1, hbuf]
  rfl

theorem decompressRequest_err_of_buffer {src : ByteSource} {es ms : Int} {c : CompressionType}
    {e : GoErr}
    (hle : es ≤ ms) (hlen : (src.content.length : Int) ≤ ms)
    (hbuf : (decompressFromBuffer src.content ms c).1 = ([], some e)) :
    (decompressRequest src es ms c).1 = ([], some e) := by
  obtain ⟨hr1, _⟩ := decompressRequestRaw_via_buffer src es ms c hle hlen
  have h0 : (0 : Int) ≤ ms := by omega
  unfold decompressRequest
  rw [hr1, hbuf, applyDeferred_nil_err h0]

theorem ParseProtoReader_stats {M : Type} (codec : ProtoCodec M) (src : ByteSource)
    (es ms : Int) (c : CompressionType) :
    (ParseProtoReader codec src es ms c).2 = (decompressRequest src es ms c).2 := by
  unfold ParseProtoReader
  split
  · rfl
  · split <;> rfl

theorem ParseProtoReader_error {M : Type} (codec : ProtoCodec M) (src : ByteSource)
    (es ms : Int) (c : CompressionType) (e : GoErr)
    (h : (decompressRequest src es ms c).1.2 = some e) :
    (ParseProtoReader codec src es ms c).1 = Except.error e := by
  unfold ParseProtoReader
  rw [h]

theorem ParseProtoReader_okOut {M : Type} (codec : ProtoCodec M) (src : ByteSource)
    (es ms : Int) (c : CompressionType) (body : List Byte) (m : M)
    (h : (decompressRequest src es ms c).1 = (body, none))
    (hu : codec.unmarshal body = Except.ok m) :
    (ParseProtoReader codec src es ms c).1 = Except.ok m := by
  have h2 : (decompressRequest src es ms c).1.2 = none := by rw [h]
  have h1 : (decompressRequest src es ms c).1.1 = body := by rw [h]
  unfold ParseProtoReader
  rw [h2, h1, hu]

/-! ### Claim theorems -/

set_option maxRecDepth 20000 in
/-- C1: the claim says every uncompressed source of `maxSize + 1` bytes or
more is rejected with the true byte count — in particular a generic
(non-buffer) reader yielding 1025 raw bytes with `maxSize = 1024` must
fail with "received message larger than max (1025 vs 1024)".  The code
does not: on the generic-reader path with `NoCompression` no size check
runs (`ReadFrom` returns a nil error at the limit and the deferred
rewrite fires only when `err != nil`), so the 1025-byte body is returned
without error and `ParseProtoReader` succeeds. -/
theorem parseProtoReader_oversized_reader_not_rejected :
    (decompressRequest (ByteSource.reader (List.replicate 1025 0)) 0 1024 NoCompression).1
        = (List.replicate 1025 0, none) ∧
      (ParseProtoReader bytesCodec (ByteSource.reader (List.replicate 1025 0)) 0 1024
          NoCompression).1 = Except.ok (List.replicate 1025 0) :=
  ⟨rfl, rfl⟩

/-- C2: the claim says the zero-copy (buffer) path and the generic reader
path produce identical results on the same bytes.  They do not: on six
bytes with `maxSize = 5` and `NoCompression`, the buffer path fails with
the size-exceeded error while the reader path succeeds and returns the
oversized body. -/
theorem bufferPath_readerPath_disagree :
    (decompressRequest (ByteSource.buffer (List.replicate 6 0)) 0 5 NoCompression).1
        = ([], some (GoErr.sizeExceeded 6 5)) ∧
      (decompressRequest (ByteSource.reader (List.replicate 6 0)) 0 5 NoCompression).1
        = (List.replicate 6 0, none) ∧
      (decompressRequest (ByteSource.buffer (List.replicate 6 0)) 0 5 NoCompression).1
        ≠ (decompressRequest (ByteSource.reader (List.replicate 6 0)) 0 5 NoCompression).1 :=
  ⟨rfl, rfl, by decide⟩

/-- C3 counterexample: with `expectedSize = 1 > maxSize = -1` the
pre-check error `(1, -1)` is rewritten by the deferred closure (since
`len(nil) = 0 > -1`) into `(0, -1)`, so the returned error does not carry
`(expectedSize, maxSize)` as the claim states for every call. -/
theorem expectedGtMax_negativeMax_counterexample :
    (ParseProtoReader bytesCodec (ByteSource.reader []) 1 (-1) NoCompression).1
        = Except.error (GoErr.sizeExceeded 0 (-1)) ∧
      GoErr.sizeExceeded 0 (-1) ≠ GoErr.sizeExceeded 1 (-1) :=
  ⟨rfl, by decide⟩

/-- C3 (amended): for every call with `expectedSize > maxSize` and
`maxSize ≥ 0`, `ParseProtoReader` fails immediately with the
size-exceeded error carrying `(expectedSize, maxSize)`, reads zero bytes
from the source and never invokes the snappy decoder — uniformly in the
source, which is therefore never accessed. -/
theorem parseProtoReader_expectedGtMax {M : Type} (codec : ProtoCodec M) (src : ByteSource)
    (expectedSize maxSize : Int) (compression : CompressionType)
    (h : expectedSize > maxSize) (h0 : 0 ≤ maxSize) :
    ParseProtoReader codec src expectedSize maxSize compression
        = (Except.error (GoErr.sizeExceeded expectedSize maxSize), ⟨0, 0⟩) ∧
      (GoErr.sizeExceeded expectedSize maxSize).message
        = formatInt2 messageSizeLargerErrFmt expectedSize maxSize := by
  refine ⟨?_, rfl⟩
  unfold ParseProtoReader decompressRequest decompressRequestRaw
  rw [if_pos h]
  simp only [applyDeferred, List.length_nil, Nat.cast_zero]
  rw [if_neg (by omega)]

/-- Closed witness for the amended C3 at the claim's concrete scenario
`expectedSize = 10, maxSize = 5`, yielding the literal error message. -/
theorem parseProtoReader_expectedGtMax_witness :
    ((ParseProtoReader bytesCodec (ByteSource.reader [1, 2, 3]) 10 5 NoCompression
        = (Except.error (GoErr.sizeExceeded 10 5), ⟨0, 0⟩)) ∧
      (GoErr.sizeExceeded 10 5).message = formatInt2 messageSizeLargerErrFmt 10 5) ∧
      (GoErr.sizeExceeded 10 5).message = "received message larger than max (10 vs 5)" :=
  ⟨parseProtoReader_expectedGtMax bytesCodec (ByteSource.reader [1, 2, 3]) 10 5 NoCompression
      (by decide) (by decide), rfl⟩

/-- C4: every size-limit violation detected by `decompressRequest`, at
whichever checkpoint, carries `maxSize` as its second component, an
observed-or-declared size strictly above `maxSize` as its first, and its
message is the shared format `messageSizeLargerErrFmt` instantiated with
that pair. -/
theorem decompressRequest_sizeExceeded_uniform (src : ByteSource)
    (expectedSize maxSize : Int) (compression : CompressionType) (o m' : Int)
    (h : (decompressRequest src expectedSize maxSize compression).1.2
        = some (GoErr.sizeExceeded o m')) :
    m' = maxSize ∧ o > maxSize ∧
      (GoErr.sizeExceeded o m').message = formatInt2 messageSizeLargerErrFmt o maxSize := by
  have hshape : m' = maxSize ∧ o > maxSize := by
    unfold decompressRequest at h
    rcases hraw : (decompressRequestRaw src expectedSize maxSize compression).1 with ⟨body, err⟩
    rw [hraw] at h
    cases err with
    | none => simp [applyDeferred] at h
    | some e0 =>
      simp only [applyDeferred] at h
      split at h
      · next h1 =>
        simp only [Option.some.injEq, GoErr.sizeExceeded.injEq] at h
        refine ⟨h.2.symm, ?_⟩
        omega
      · next h1 =>
        have he0 : e0 = GoErr.sizeExceeded o m' := by simpa using h
        have hx : (decompressRequestRaw src expectedSize maxSize compression).1.2
            = some (GoErr.sizeExceeded o m') := by rw [hraw, he0]
        exact decompressRequestRaw_sizeErr hx
  refine ⟨hshape.1, hshape.2, ?_⟩
  simp only [hshape.1, GoErr.message]

/-- Closed witness for C4 at a post-read checkpoint: a six-byte buffer
with `maxSize = 5` yields the size error `(6, 5)` with the literal
formatted message. -/
theorem decompressRequest_sizeExceeded_uniform_witness :
    ((decompressRequest (ByteSource.buffer [9, 9, 9, 9, 9, 9]) 0 5 NoCompression).1.2
        = some (GoErr.sizeExceeded 6 5)) ∧
      ((5 : Int) = 5 ∧ (6 : Int) > 5 ∧ (GoErr.sizeExceeded 6 5).message
        = formatInt2 messageSizeLargerErrFmt 6 5) ∧
      formatInt2 messageSizeLargerErrFmt 6 5 = "received message larger than max (6 vs 5)" :=
  ⟨rfl,
   decompressRequest_sizeExceeded_uniform (ByteSource.buffer [9, 9, 9, 9, 9, 9]) 0 5
     NoCompression 6 5 rfl,
   rfl⟩

/-- C5: for every RawSnappy input within the raw-size budget whose block
header declares a decoded length greater than `maxSize`, the parse fails
with the size-exceeded error carrying the declared length and `maxSize`,
and the snappy block decoder is never invoked. -/
theorem parseProtoReader_declaredLen_exceeds {M : Type} (codec : ProtoCodec M)
    (src : ByteSource) (expectedSize maxSize : Int) (n : Nat)
    (he : expectedSize ≤ maxSize)
    (hlen : (src.content.length : Int) ≤ maxSize)
    (hdecl : snappyDecodedLen src.content = Except.ok n)
    (hover : (n : Int) > maxSize) :
    (ParseProtoReader codec src expectedSize maxSize RawSnappy).1
        = Except.error (GoErr.sizeExceeded n maxSize) ∧
      (ParseProtoReader codec src expectedSize maxSize RawSnappy).2.snappyDecodeCalls = 0 := by
  have hbuf := decompressFromBuffer_rawSnappy_declTooBig hlen hdecl hover
  have hreq : (decompressRequest src expectedSize maxSize RawSnappy).1
      = ([], some (GoErr.sizeExceeded n maxSize)) :=
    decompressRequest_err_of_buffer he hlen (by rw [hbuf])
  constructor
  · exact ParseProtoReader_error codec src _ _ _ _ (by rw [hreq])
  · rw [ParseProtoReader_stats, decompressRequest_stats,
      (decompressRequestRaw_via_buffer src expectedSize maxSize RawSnappy he hlen).2, hbuf]

/-- Closed witness for C5: `maxSize = 4`, four raw bytes whose header
declares a decoded length of 10. -/
theorem parseProtoReader_declaredLen_exceeds_witness :
    (ParseProtoReader bytesCodec (ByteSource.buffer [10, 1, 2, 3]) 0 4 RawSnappy).1
        = Except.error (GoErr.sizeExceeded 10 4) ∧
      (ParseProtoReader bytesCodec
        (ByteSource.buffer [10, 1, 2, 3]) 0 4 RawSnappy).2.snappyDecodeCalls = 0 :=
  parseProtoReader_declaredLen_exceeds bytesCodec (ByteSource.buffer [10, 1, 2, 3]) 0 4 10
    (by decide) (by decide) rfl (by decide)

/-- C6: a payload whose post-decompression size is exactly `maxSize`,
acquired from raw bytes within the read budget, is accepted:
`decompressRequest` returns it without error, and `ParseProtoReader`
succeeds whenever the message unmarshals from it. -/
theorem parseProtoReader_exact_maxSize_succeeds {M : Type} (codec : ProtoCodec M)
    (src : ByteSource) (expectedSize maxSize : Int) (compression : CompressionType)
    (payload : List Byte) (m : M)
    (he : expectedSize ≤ maxSize)
    (hraw : (src.content.length : Int) ≤ maxSize)
    (hc : (compression = NoCompression ∧ payload = src.content) ∨
          (compression = RawSnappy ∧ snappyDecode src.content = Except.ok payload))
    (hexact : (payload.length : Int) = maxSize)
    (hu : codec.unmarshal payload = Except.ok m) :
    (decompressRequest src expectedSize maxSize compression).1 = (payload, none) ∧
      (ParseProtoReader codec src expectedSize maxSize compression).1 = Except.ok m := by
  have hbuf : (decompressFromBuffer src.content maxSize compression).1 = (payload, none) := by
    rcases hc with ⟨hcc, hp⟩ | ⟨hcc, hdec⟩
    · subst hcc
      rw [hp, decompressFromBuffer_noCompression_ok hraw]
    · subst hcc
      rw [decompressFromBuffer_rawSnappy_ok hraw hdec (by omega)]
  have hreq := decompressRequest_ok_of_buffer he hraw hbuf
  exact ⟨hreq, ParseProtoReader_okOut codec src _ _ _ payload m hreq hu⟩

/-- Closed witness for C6 at the boundary: a three-byte buffer with
`maxSize = 3` is accepted. -/
theorem parseProtoReader_exact_maxSize_succeeds_witness :
    (decompressRequest (ByteSource.buffer [1, 2, 3]) 0 3 NoCompression).1 = ([1, 2, 3], none) ∧
      (ParseProtoReader bytesCodec (ByteSource.buffer [1, 2, 3]) 0 3 NoCompression).1
        = Except.ok [1, 2, 3] :=
  parseProtoReader_exact_maxSize_succeeds bytesCodec (ByteSource.buffer [1, 2, 3]) 0 3
    NoCompression [1, 2, 3] [1, 2, 3] (by decide) (by decide) (Or.inl ⟨rfl, rfl⟩)
    (by decide) rfl

/-- C7: round-trip law: serializing a message under either compression
mode and parsing the produced bytes with `expectedSize = maxSize = ` the
wire length recovers the message, on the zero-copy path and on the
generic reader path alike. -/
theorem serializeProtoResponse_parseProtoReader_roundTrip {M : Type} (codec : ProtoCodec M)
    (msg : M) (c : CompressionType) (data : List Byte)
    (hc : c = NoCompression ∨ c = RawSnappy)
    (hm : codec.marshal msg = Except.ok data)
    (hu : codec.unmarshal data = Except.ok msg) :
    ∃ wire : List Byte, SerializeProtoResponse codec msg c = Except.ok wire ∧
      (ParseProtoReader codec (ByteSource.buffer wire) (wire.length : Int)
          (wire.length : Int) c).1 = Except.ok msg ∧
      (ParseProtoReader codec (ByteSource.reader wire) (wire.length : Int)
          (wire.length : Int) c).1 = Except.ok msg := by
  rcases hc with hcc | hcc
  · subst hcc
    have hstep : ∀ src : ByteSource, src.content = data →
        (ParseProtoReader codec src (data.length : Int) (data.length : Int) NoCompression).1
          = Except.ok msg := by
      intro src hsc
      have hbuf : (decompressFromBuffer src.content (data.length : Int) NoCompression).1
          = (data, none) := by
        rw [hsc, decompressFromBuffer_noCompression_ok (le_refl _)]
      exact ParseProtoReader_okOut codec src _ _ _ data msg
        (decompressRequest_ok_of_buffer (le_refl _) (by simp [hsc]) hbuf) hu
    refine ⟨data, ?_, hstep (ByteSource.buffer data) rfl, hstep (ByteSource.reader data) rfl⟩
    unfold SerializeProtoResponse
    rw [hm]
    rfl
  · subst hcc
    have hwlen : (snappyEncode data).length = (uvarintEncode data.length).length + data.length := by
      simp [snappyEncode]
    have hdbound : (data.length : Int) ≤ ((snappyEncode data).length : Int) := by
      have h1 := uvarintEncode_length_pos data.length
      omega
    have hstep : ∀ src : ByteSource, src.content = snappyEncode data →
        (ParseProtoReader codec src ((snappyEncode data).length : Int)
            ((snappyEncode data).length : Int) RawSnappy).1 = Except.ok msg := by
      intro src hsc
      have hbuf : (decompressFromBuffer src.content ((snappyEncode data).length : Int)
          RawSnappy).1 = (data, none) := by
        rw [hsc, decompressFromBuffer_rawSnappy_ok (le_refl _)
          (snappyDecode_snappyEncode data) hdbound]
      exact ParseProtoReader_okOut codec src _ _ _ data msg
        (decompressRequest_ok_of_buffer (le_refl _) (by simp [hsc]) hbuf) hu
    refine ⟨snappyEncode data, ?_, hstep (ByteSource.buffer (snappyEncode data)) rfl,
      hstep (ByteSource.reader (snappyEncode data)) rfl⟩
    unfold SerializeProtoResponse
    rw [hm]
    rfl

/-- Closed witness for C7 under RawSnappy compression with the two-byte
message `[7, 7]`. -/
theorem serializeProtoResponse_parseProtoReader_roundTrip_witness :
    ∃ wire : List Byte, SerializeProtoResponse bytesCodec [7, 7] RawSnappy = Except.ok wire ∧
      (ParseProtoReader bytesCodec (ByteSource.buffer wire) (wire.length : Int)
          (wire.length : Int) RawSnappy).1 = Except.ok [7, 7] ∧
      (ParseProtoReader bytesCodec (ByteSource.reader wire) (wire.length : Int)
          (wire.length : Int) RawSnappy).1 = Except.ok [7, 7] :=
  serializeProtoResponse_parseProtoReader_roundTrip bytesCodec [7, 7] RawSnappy [7, 7]
    (Or.inr rfl) rfl rfl

/-- C8: a RawSnappy input within the budget whose header declares a
length within `maxSize` but whose body is corrupt fails with the
decompression error — which is not a size-exceeded error. -/
theorem parseProtoReader_malformed_snappy {M : Type} (codec : ProtoCodec M) (src : ByteSource)
    (expectedSize maxSize : Int) (n : Nat) (e : GoErr)
    (he : expectedSize ≤ maxSize)
    (hlen : (src.content.length : Int) ≤ maxSize)
    (hdecl : snappyDecodedLen src.content = Except.ok n)
    (hfits : (n : Int) ≤ maxSize)
    (hbad : snappyDecode src.content = Except.error e) :
    (ParseProtoReader codec src expectedSize maxSize RawSnappy).1 = Except.error e ∧
      e.isSizeExceeded = false := by
  have hbuf := decompressFromBuffer_rawSnappy_corrupt hlen hdecl hfits hbad
  have hreq : (decompressRequest src expectedSize maxSize RawSnappy).1 = ([], some e) :=
    decompressRequest_err_of_buffer he hlen (by rw [hbuf])
  refine ⟨ParseProtoReader_error codec src _ _ _ _ (by rw [hreq]), ?_⟩
  rw [snappyDecode_error hbad]
  rfl

/-- Closed witness for C8: three raw bytes declaring a decoded length of
3 but carrying only a two-byte body, under `maxSize = 5`. -/
theorem parseProtoReader_malformed_snappy_witness :
    (ParseProtoReader bytesCodec (ByteSource.buffer [3, 9, 9]) 0 5 RawSnappy).1
        = Except.error GoErr.snappyCorrupt ∧
      GoErr.snappyCorrupt.isSizeExceeded = false :=
  parseProtoReader_malformed_snappy bytesCodec (ByteSource.buffer [3, 9, 9]) 0 5 3
    GoErr.snappyCorrupt (by decide) (by decide) rfl (by decide) rfl

/-- C9: noninterference of the size hint: with the source, `maxSize`,
compression mode and codec fixed, any two `expectedSize` values that are
at most `maxSize` (including non-positive ones) produce the same result,
error and decoded content — the hint only pre-sizes an internal buffer. -/
theorem parseProtoReader_hint_noninterference {M : Type} (codec : ProtoCodec M)
    (src : ByteSource) (e1 e2 maxSize : Int) (c : CompressionType)
    (h1 : e1 ≤ maxSize) (h2 : e2 ≤ maxSize) :
    ParseProtoReader codec src e1 maxSize c = ParseProtoReader codec src e2 maxSize c := by
  have hraw : decompressRequestRaw src e1 maxSize c = decompressRequestRaw src e2 maxSize c := by
    cases src with
    | buffer d =>
      rw [decompressRequestRaw_buffer d e1 maxSize c (by omega),
        decompressRequestRaw_buffer d e2 maxSize c (by omega)]
    | reader d =>
      rw [decompressRequestRaw_reader d e1 maxSize c (by omega),
        decompressRequestRaw_reader d e2 maxSize c (by omega)]
      rfl
  have hreq : decompressRequest src e1 maxSize c = decompressRequest src e2 maxSize c := by
    unfold decompressRequest
    rw [hraw]
  unfold ParseProtoReader
  rw [hreq]

/-- Closed witness for C9: hint values `0` and `-5` give identical
results on a three-byte reader source. -/
theorem parseProtoReader_hint_noninterference_witness :
    ParseProtoReader bytesCodec (ByteSource.reader [1, 2, 3]) 0 3 NoCompression
      = ParseProtoReader bytesCodec (ByteSource.reader [1, 2, 3]) (-5) 3 NoCompression :=
  parseProtoReader_hint_noninterference bytesCodec (ByteSource.reader [1, 2, 3]) 0 (-5) 3
    NoCompression (by decide) (by decide)

/-- C10: a compression value outside the two declared constants makes the
decompression step return a nil body with a nil error (once the size
pre-checks pass), so `ParseProtoReader` does not reject it: it resets the
target and unmarshals it from empty bytes, yielding the empty message. -/
theorem parseProtoReader_unknownCompression {M : Type} (codec : ProtoCodec M)
    (src : ByteSource) (expectedSize maxSize : Int) (c : CompressionType) (em : M)
    (h0 : ¬ c = NoCompression) (h1 : ¬ c = RawSnappy)
    (he : expectedSize ≤ maxSize)
    (hlen : (src.content.length : Int) ≤ maxSize)
    (hu : codec.unmarshal [] = Except.ok em) :
    (decompressRequest src expectedSize maxSize c).1 = ([], none) ∧
      (ParseProtoReader codec src expectedSize maxSize c).1 = Except.ok em := by
  have hbuf : (decompressFromBuffer src.content maxSize c).1 = ([], none) := by
    rw [decompressFromBuffer_unknown hlen h0 h1]
  have hreq := decompressRequest_ok_of_buffer he hlen hbuf
  exact ⟨hreq, ParseProtoReader_okOut codec src _ _ _ [] em hreq hu⟩

/-- Closed witness for C10 at compression value 2 on a three-byte reader
source: the parse silently succeeds with the empty message. -/
theorem parseProtoReader_unknownCompression_witness :
    (decompressRequest (ByteSource.reader [1, 2, 3]) 0 3 2).1 = ([], none) ∧
      (ParseProtoReader bytesCodec (ByteSource.reader [1, 2, 3]) 0 3 2).1 = Except.ok [] :=
  parseProtoReader_unknownCompression bytesCodec (ByteSource.reader [1, 2, 3]) 0 3 2 []
    (by decide) (by decide) (by decide) (by decide) rfl

end Grpcutil
